import Mathlib

/-!
Shallow embedding of the ValutaTrade Hub repository (Python) in Lean 4,
used to check the natural-language specification against the code.

Numeric values (balances, amounts, rates, fees) are embedded as rationals.
The Python source mixes `float` and `decimal.Decimal`; all the constants
appearing in the claims (0.01, 60000, 0.1/100 = 0.001, 1e-8) round-trip
exactly through `Decimal(str(...))`, so `ℚ` represents them exactly.
Timestamps are embedded as rationals counting seconds (the source compares
`datetime` differences via `total_seconds()`; ISO-8601 strings of one format
compare lexicographically in the same order as the instants they denote).
-/

namespace ValutaTrade

/-! ### Wallet (src/valutatrade_hub/core/models.py, class Wallet) -/

/-- Python-level errors raised by the embedded code paths. -/
inductive PyError where
  /-- ValueError (bad amount, negative balance in the setter, missing wallet, ...). -/
  | valueError (msg : String)
  /-- AttributeError ('NoneType' object has no attribute ...). -/
  | attributeError
  deriving Repr, DecidableEq

/-- Wallet for a single currency: `Wallet.__init__(currency_code, balance)`. -/
structure Wallet where
  currency_code : String
  balance : ℚ
  deriving Repr, DecidableEq

/-- The `balance` property setter: rejects negative values with ValueError. -/
def Wallet.setBalance (w : Wallet) (value : ℚ) : Except PyError Wallet :=
  if value < 0 then .error (.valueError "Баланс не может быть отрицательным")
  else .ok { w with balance := value }

/-- Embeds `Wallet.deposit`: rejects non-positive amounts, then `self.balance += amount`
through the setter. -/
def Wallet.deposit (w : Wallet) (amount : ℚ) : Except PyError Wallet :=
  if amount ≤ 0 then .error (.valueError "Сумма пополнения должна быть положительной")
  else w.setBalance (w.balance + amount)

/-- Embeds `Wallet.withdraw`: rejects non-positive amounts with ValueError; returns
`False` (no mutation) when `amount > balance`; otherwise debits through the
setter and returns `True`. -/
def Wallet.withdraw (w : Wallet) (amount : ℚ) : Except PyError (Wallet × Bool) :=
  if amount ≤ 0 then .error (.valueError "Сумма снятия должна быть положительной")
  else if amount > w.balance then .ok (w, false)
  else (w.setBalance (w.balance - amount)).map (fun w' => (w', true))

/-- One call against a wallet, for stating the balance invariant over
arbitrary call sequences. -/
inductive WalletOp where
  | deposit (amount : ℚ)
  | withdraw (amount : ℚ)
  deriving Repr, DecidableEq

/-- Apply one operation; a raised exception leaves the wallet unchanged
(the Python setter raises before `_balance` is reassigned). -/
def Wallet.applyOp (w : Wallet) (op : WalletOp) : Wallet :=
  match op with
  | .deposit a => match w.deposit a with
    | .ok w' => w'
    | .error _ => w
  | .withdraw a => match w.withdraw a with
    | .ok (w', _) => w'
    | .error _ => w

/-- Run a sequence of deposit/withdraw calls. -/
def Wallet.runOps (w : Wallet) (ops : List WalletOp) : Wallet :=
  ops.foldl Wallet.applyOp w

/-! ### Freshness checks (usecases.py `_is_rate_fresh`, storage.py `is_rate_fresh`) -/

/-- Embeds `ExchangeRateService._is_rate_fresh`: a missing/unparseable `updated_at`
is stale; otherwise fresh iff `(now - updated_at).total_seconds() <= rates_ttl`. -/
def isRateFresh (ratesTtl now : ℚ) (updatedAt : Option ℚ) : Bool :=
  match updatedAt with
  | none => false
  | some u => decide (now - u ≤ ratesTtl)

/-- Embeds `RatesStorage.is_rate_fresh`: missing record or missing `updated_at` is
stale; otherwise fresh iff `age <= CACHE_TTL_SECONDS`. -/
def storageIsRateFresh (cacheTtl now : ℚ) (rateInfo : Option (Option ℚ)) : Bool :=
  match rateInfo with
  | none => false
  | some updatedAt =>
    match updatedAt with
    | none => false
    | some u => decide (now - u ≤ cacheTtl)

/-! ### Theorems for C3 and C8 -/

theorem wallet_deposit_ok (w : Wallet) (a : ℚ) (hw : 0 ≤ w.balance) (ha : 0 < a) :
    w.deposit a = .ok { w with balance := w.balance + a } := by
  unfold Wallet.deposit Wallet.setBalance
  rw [if_neg (by linarith), if_neg (by linarith)]

theorem wallet_applyOp_nonneg (w : Wallet) (op : WalletOp) (hw : 0 ≤ w.balance) :
    0 ≤ (w.applyOp op).balance := by
  cases op with
  | deposit a =>
    unfold Wallet.applyOp Wallet.deposit Wallet.setBalance
    by_cases h1 : a ≤ 0
    · simp [h1]; exact hw
    · by_cases h2 : w.balance + a < 0
      · simp [h1, h2]; exact hw
      · simp [h1, h2]; linarith
  | withdraw a =>
    unfold Wallet.applyOp Wallet.withdraw Wallet.setBalance
    by_cases h1 : a ≤ 0
    · simp [h1]; exact hw
    · by_cases h2 : a > w.balance
      · simp [h1, h2]; exact hw
      · by_cases h3 : w.balance - a < 0
        · simp [h1, h2, h3]; exact hw
        · simp [h1, h2, h3, Except.map]; linarith

/-- C3: over any sequence of deposit/withdraw calls a wallet balance stays
non-negative, and withdraw is all-or-nothing: with `amount > balance` it
returns False leaving the wallet untouched, otherwise (for a positive amount
on a non-negative balance) it debits exactly `amount` and returns True. -/
theorem wallet_balance_invariant :
    (∀ (w : Wallet) (ops : List WalletOp), 0 ≤ w.balance →
       0 ≤ (w.runOps ops).balance) ∧
    (∀ (w : Wallet) (a : ℚ), 0 < a → a > w.balance →
       w.withdraw a = .ok (w, false)) ∧
    (∀ (w : Wallet) (a : ℚ), 0 ≤ w.balance → 0 < a → a ≤ w.balance →
       w.withdraw a = .ok ({ w with balance := w.balance - a }, true)) := by
  refine ⟨?_, ?_, ?_⟩
  · intro w ops hw
    induction ops generalizing w with
    | nil => exact hw
    | cons op rest ih =>
      unfold Wallet.runOps
      simp only [List.foldl_cons]
      exact ih _ (wallet_applyOp_nonneg w op hw)
  · intro w a ha hgt
    unfold Wallet.withdraw
    rw [if_neg (by linarith), if_pos hgt]
  · intro w a hw ha hle
    unfold Wallet.withdraw Wallet.setBalance
    rw [if_neg (by linarith), if_neg (by linarith), if_neg (by linarith)]
    rfl

theorem wallet_balance_invariant_witness :
    0 ≤ (Wallet.runOps ⟨"USD", 10⟩
      [.deposit 5, .withdraw 20, .withdraw 3, .deposit 0]).balance ∧
    Wallet.withdraw ⟨"BTC", 1/100⟩ 1 = .ok (⟨"BTC", 1/100⟩, false) ∧
    Wallet.withdraw ⟨"USD", 10⟩ 4 = .ok (⟨"USD", 6⟩, true) := by
  refine ⟨wallet_balance_invariant.1 ⟨"USD", 10⟩ _ (by norm_num),
    wallet_balance_invariant.2.1 ⟨"BTC", 1/100⟩ 1 (by norm_num) (by norm_num), ?_⟩
  have h := wallet_balance_invariant.2.2 ⟨"USD", 10⟩ 4
    (by norm_num) (by norm_num) (by norm_num)
  norm_num at h
  exact h

/-- C8: both freshness checks use the inclusive comparison `age <= TTL`:
a record updated `TTL + 1` seconds ago is stale, one updated `TTL - 1`
seconds ago is fresh, and the exact-TTL boundary counts as fresh, for every
TTL of at least one second. -/
theorem freshness_boundary (ttl now : ℚ) (h : 1 ≤ ttl) :
    isRateFresh ttl now (some (now - ttl - 1)) = false ∧
    isRateFresh ttl now (some (now - ttl + 1)) = true ∧
    isRateFresh ttl now (some (now - ttl)) = true ∧
    storageIsRateFresh ttl now (some (some (now - ttl - 1))) = false ∧
    storageIsRateFresh ttl now (some (some (now - ttl + 1))) = true ∧
    storageIsRateFresh ttl now (some (some (now - ttl))) = true := by
  unfold isRateFresh storageIsRateFresh
  refine ⟨?_, ?_, ?_, ?_, ?_, ?_⟩ <;> simp <;> linarith

theorem freshness_boundary_witness :
    (1 : ℚ) ≤ 300 ∧
    isRateFresh 300 1000 (some (1000 - 300 - 1)) = false ∧
    isRateFresh 300 1000 (some (1000 - 300 + 1)) = true := by
  have h := freshness_boundary 300 1000 (by norm_num)
  exact ⟨by norm_num, h.1, h.2.1⟩

/-! ### Rate history storage (src/valutatrade_hub/parser_service/storage.py) -/

/-- One history record, as written by `RatesStorage.save_to_history`.
The Python sort key is the ISO-8601 `timestamp` string; same-format ISO
strings compare lexicographically as their instants do, so the key is
embedded as a natural number. -/
structure HistoryRecord where
  id : String
  from_currency : String
  to_currency : String
  rate : ℚ
  timestamp : Nat
  source : String
  deriving Repr, DecidableEq

/-- Sort key comparison used by `_trim_history` (`key=lambda x: x.get("timestamp", "")`). -/
def tsLe (a b : HistoryRecord) : Bool := decide (a.timestamp ≤ b.timestamp)

/-- Embeds `RatesStorage._trim_history(max_records)`: when the stored history is
longer than `max_records`, sort ascending by timestamp and keep the last
`max_records` entries (`history[-max_records:]`); otherwise leave it alone. -/
def trimHistory (maxRecords : Nat) (history : List HistoryRecord) : List HistoryRecord :=
  if history.length > maxRecords then
    (List.insertionSort (fun a b => tsLe a b) history).drop (history.length - maxRecords)
  else history

/-- Embeds `RatesStorage.save_to_history` with a parameterised cap: append the new
records to the loaded history, write it, then trim. The source hard-codes
`self._trim_history(1000)` at the call site; see `saveToHistory`. -/
def saveToHistoryN (maxRecords : Nat) (history newRecords : List HistoryRecord) :
    List HistoryRecord :=
  trimHistory maxRecords (history ++ newRecords)

/-- Embeds `RatesStorage.save_to_history` as called in the source (cap 1000). -/
def saveToHistory (history newRecords : List HistoryRecord) : List HistoryRecord :=
  saveToHistoryN 1000 history newRecords

/-! ### Storage loads (storage.py `load_current_rates`, `_load_history`) -/

/-- Structured storage error (`DatabaseError` from core/exceptions.py). -/
inductive StorageError where
  | databaseError (detail : String)
  deriving Repr, DecidableEq

/-- Parsed contents of rates.json as `load_current_rates` returns them. -/
structure CurrentRatesData where
  pairs : List (String × ℚ × Nat × String)
  metadata : List (String × String)
  deriving Repr, DecidableEq

/-- The state of the backing rates.json file when a load runs. -/
inductive RatesFileState where
  | missing
  | corrupt
  | valid (data : CurrentRatesData)
  deriving Repr, DecidableEq

/-- The state of the backing exchange_rates.json history file. A present
file either fails JSON parsing, parses to a JSON list, or parses to some
non-list JSON value. -/
inductive HistoryFileState where
  | missing
  | corrupt
  | validList (records : List HistoryRecord)
  | validOther
  deriving Repr, DecidableEq

/-- Embeds `RatesStorage.load_current_rates`: a missing file yields the empty-but-
valid snapshot `{"pairs": {}, "metadata": {}}`; a JSONDecodeError is wrapped
in a `DatabaseError`. -/
def loadCurrentRates (file : RatesFileState) : Except StorageError CurrentRatesData :=
  match file with
  | .missing => .ok { pairs := [], metadata := [] }
  | .corrupt => .error (.databaseError "Ошибка декодирования JSON файла")
  | .valid data => .ok data

/-- Embeds `RatesStorage._load_history`: a missing file yields `[]`; a
JSONDecodeError is swallowed and yields `[]`; non-list JSON yields `[]`. -/
def loadHistoryData (file : HistoryFileState) : Except StorageError (List HistoryRecord) :=
  match file with
  | .missing => .ok []
  | .corrupt => .ok []
  | .validList records => .ok records
  | .validOther => .ok []

/-! ### Theorems for C4 and C9 -/

theorem trimHistory_length (maxRecords : Nat) (history : List HistoryRecord) :
    (trimHistory maxRecords history).length ≤ max maxRecords history.length := by
  unfold trimHistory
  by_cases h : history.length > maxRecords
  · rw [if_pos h, List.length_drop, List.length_insertionSort]
    omega
  · rw [if_neg h]
    omega

/-- C4: after any `save_to_history` append the retained history never exceeds
the configured cap (1000 at the source's call site); when the combined
history overflows the cap, the entries evicted are a lower segment of the
timestamp-ascending sort — every evicted record's timestamp is at most every
retained record's timestamp, so the retained entries are the most recent ones. -/
theorem history_bounded (maxRecords : Nat) (history newRecords : List HistoryRecord)
    (hpos : 0 < maxRecords) :
    saveToHistory history newRecords = saveToHistoryN 1000 history newRecords ∧
    (saveToHistoryN maxRecords history newRecords).length ≤ maxRecords ∧
    ((history ++ newRecords).length > maxRecords →
      ∀ x ∈ (List.insertionSort (fun a b => tsLe a b) (history ++ newRecords)).take
          ((history ++ newRecords).length - maxRecords),
      ∀ y ∈ saveToHistoryN maxRecords history newRecords,
        x.timestamp ≤ y.timestamp) := by
  have htot : IsTotal HistoryRecord (fun a b => tsLe a b = true) := by
    constructor; intro a b; unfold tsLe; simp; omega
  have htrans : IsTrans HistoryRecord (fun a b => tsLe a b = true) := by
    constructor; intro a b c; unfold tsLe; simp; omega
  refine ⟨rfl, ?_, ?_⟩
  · unfold saveToHistoryN trimHistory
    by_cases h : (history ++ newRecords).length > maxRecords
    · rw [if_pos h, List.length_drop, List.length_insertionSort]
      omega
    · rw [if_neg h]
      omega
  · intro hover x hx y hy
    unfold saveToHistoryN trimHistory at hy
    rw [if_pos hover] at hy
    have hsorted : List.Sorted (fun a b => tsLe a b = true)
        (List.insertionSort (fun a b => tsLe a b) (history ++ newRecords)) :=
      List.sorted_insertionSort _ _
    have := List.Sorted.rel_of_mem_take_of_mem_drop hsorted hx hy
    unfold tsLe at this
    simpa using this

theorem history_bounded_witness :
    (0 < 2) ∧
    ((ValutaTrade.saveToHistoryN 2
        [⟨"r1", "BTC", "USD", 60000, 10, "s"⟩, ⟨"r2", "BTC", "USD", 60100, 30, "s"⟩]
        [⟨"r3", "BTC", "USD", 60200, 20, "s"⟩]).length ≤ 2) := by
  have h := history_bounded 2
    [⟨"r1", "BTC", "USD", 60000, 10, "s"⟩, ⟨"r2", "BTC", "USD", 60100, 30, "s"⟩]
    [⟨"r3", "BTC", "USD", 60200, 20, "s"⟩] (by norm_num)
  exact ⟨by norm_num, h.2.1⟩

/-- C9 counterexample: on a corrupt (non-parseable) history file,
`_load_history` silently returns the empty list instead of raising a
structured storage error. -/
theorem corrupt_history_load_returns_empty :
    loadHistoryData HistoryFileState.corrupt = .ok [] ∧
    (loadHistoryData HistoryFileState.corrupt).isOk = true := by
  exact ⟨rfl, rfl⟩

/-- C9 amended: loads degrade gracefully on missing files (empty-but-valid
snapshot for current rates, empty list for history); a corrupt current-rates
file raises a structured `DatabaseError`, but a corrupt history file is
swallowed and yields the empty list rather than an error. -/
theorem load_degradation :
    loadCurrentRates .missing = .ok { pairs := [], metadata := [] } ∧
    loadCurrentRates .corrupt =
      .error (.databaseError "Ошибка декодирования JSON файла") ∧
    loadHistoryData .missing = .ok [] ∧
    loadHistoryData .corrupt = .ok [] := by
  exact ⟨rfl, rfl, rfl, rfl⟩

/-! ### Currency registry (src/valutatrade_hub/core/currencies.py) and
`ExchangeRateService.get_rate` (src/valutatrade_hub/core/usecases.py) -/

/-- ASCII uppercase of one character, as Python's `str.upper` acts on the
2-to-5-letter currency codes the registry accepts. -/
def upChar (c : Char) : Char :=
  if 97 ≤ c.toNat ∧ c.toNat ≤ 122 then Char.ofNat (c.toNat - 32) else c

/-- Embeds `code.upper()` for ASCII currency codes. -/
def pyUpper (s : String) : String := ⟨s.data.map upChar⟩

/-- The codes held by `CurrencyRegistry` (`_FIAT_CURRENCIES` then
`_CRYPTO_CURRENCIES`). -/
def registeredCodes : List String :=
  ["USD", "EUR", "GBP", "JPY", "RUB", "CNY", "CHF", "CAD", "AUD",
   "BTC", "ETH", "BNB", "XRP", "ADA", "SOL", "DOT"]

/-- Embeds `CurrencyRegistry.get_currency` succeeds exactly when the uppercased code
is registered. -/
def registryHas (code : String) : Bool := registeredCodes.contains (pyUpper code)

/-- Errors surfaced by the rate/trade code paths. -/
inductive RateError where
  | currencyNotFound (detail : String)
  | apiRequestError (detail : String)
  deriving Repr, DecidableEq

/-- One cached rate entry (`rates[pair_key]` in `_rates_cache`): the rate
value plus the parsed `updated_at` (none when the field is missing or
unparseable) and the source tag. -/
structure RateRecord where
  rate : ℚ
  updatedAt : Option ℚ
  source : String
  deriving Repr, DecidableEq

/-- The in-memory `_rates_cache` plus `_cache_timestamp`. -/
structure RatesCache where
  rates : List (String × RateRecord)
  cacheTimestamp : ℚ
  deriving Repr, DecidableEq

/-- Dictionary lookup `rates.get(key)` / `key in rates`. -/
def lookupRate (rates : List (String × RateRecord)) (key : String) : Option RateRecord :=
  (rates.find? (fun p => p.1 = key)).map (fun p => p.2)

/-- The fresh-rate value of a cache entry, if any: mirrors the
`if pair_key in rates: ... if self._is_rate_fresh(...)` pattern. -/
def freshRateOf (ratesTtl now : ℚ) (entry : Option RateRecord) : Option ℚ :=
  match entry with
  | none => none
  | some r => if isRateFresh ratesTtl now r.updatedAt then some r.rate else none

/-- Embeds `ExchangeRateService.get_rate`. The two impure steps are parameters:
`apiRefresh` stands for `_update_rates_from_api` (which perturbs every cached
rate and is invoked when the whole in-memory cache is older than the TTL),
and `fetchApi` stands for `_fetch_rate_from_api` (the per-pair fallback,
which can raise `ApiRequestError`). The returned value follows the source:
uppercase both codes, validate them against the registry, return 1 for equal
codes, then direct fresh pair, then inverse fresh pair, then the API fetch. -/
def getRate (ratesTtl now : ℚ)
    (apiRefresh : List (String × RateRecord) → List (String × RateRecord))
    (fetchApi : String → String → Except RateError ℚ)
    (cache : RatesCache) (fromCurrency toCurrency : String) : Except RateError ℚ :=
  let f := pyUpper fromCurrency
  let t := pyUpper toCurrency
  if ¬ (registryHas f ∧ registryHas t) then
    .error (.currencyNotFound ("Одна из валют не найдена: " ++ f ++ ", " ++ t))
  else if f = t then .ok 1
  else
    let rates := if now - cache.cacheTimestamp > ratesTtl
      then apiRefresh cache.rates else cache.rates
    let pairKey := f ++ "_" ++ t
    let reverseKey := t ++ "_" ++ f
    match freshRateOf ratesTtl now (lookupRate rates pairKey) with
    | some r => .ok r
    | none =>
      match freshRateOf ratesTtl now (lookupRate rates reverseKey) with
      | some r => .ok (1 / r)
      | none => fetchApi f t

theorem upChar_fix (m : Nat) (h1 : 65 ≤ m) (h2 : m ≤ 90) :
    upChar (Char.ofNat m) = Char.ofNat m := by
  interval_cases m <;> decide

theorem upChar_idem (c : Char) : upChar (upChar c) = upChar c := by
  by_cases h : 97 ≤ c.toNat ∧ c.toNat ≤ 122
  · have hc : upChar c = Char.ofNat (c.toNat - 32) := by
      unfold upChar; rw [if_pos h]
    rw [hc]
    exact upChar_fix (c.toNat - 32) (by omega) (by omega)
  · have hc : upChar c = c := by
      unfold upChar; rw [if_neg h]
    rw [hc, hc]

theorem pyUpper_idem (s : String) : pyUpper (pyUpper s) = pyUpper s := by
  unfold pyUpper
  apply congrArg String.mk
  show (s.data.map upChar).map upChar = s.data.map upChar
  induction s.data with
  | nil => rfl
  | cons c rest ih => simp [upChar_idem, ih]

/-! ### Theorems for C6, C7 and C10 -/

/-- C6: for every currency accepted by the registry, `get_rate(X, X)`
returns exactly 1, whatever the cache contents, cache timestamp, TTL and
API behaviour are (the equal-codes branch returns before any cache access). -/
theorem getRate_same_currency (ratesTtl now : ℚ)
    (apiRefresh : List (String × RateRecord) → List (String × RateRecord))
    (fetchApi : String → String → Except RateError ℚ)
    (cache : RatesCache) (code : String)
    (hreg : registryHas code = true) :
    getRate ratesTtl now apiRefresh fetchApi cache code code = .ok 1 := by
  unfold getRate
  have hup : registryHas (pyUpper code) = true := by
    unfold registryHas
    rw [pyUpper_idem]
    exact hreg
  simp [hup]

theorem getRate_same_currency_witness :
    registryHas "USD" = true ∧
    getRate 300 1000 id (fun _ _ => .error (.apiRequestError "down"))
      ⟨[], 0⟩ "USD" "USD" = .ok 1 := by
  refine ⟨by decide, ?_⟩
  exact getRate_same_currency 300 1000 id (fun _ _ => .error (.apiRequestError "down"))
    ⟨[], 0⟩ "USD" (by decide)

/-- C7: when `get_rate(A, B)` is answered by a fresh direct cache entry and
`get_rate(B, A)` by the inverse derivation from that same entry (no direct
`B_A` entry, cache young enough that no refetch runs in between), the two
results multiply to exactly 1 — the embedding computes in exact rationals,
so the round-trip product is 1 and in particular within rounding tolerance. -/
theorem getRate_round_trip (ratesTtl now : ℚ)
    (apiRefresh : List (String × RateRecord) → List (String × RateRecord))
    (fetchApi : String → String → Except RateError ℚ)
    (cache : RatesCache) (A B : String) (rec : RateRecord)
    (hAu : pyUpper A = A) (hBu : pyUpper B = B)
    (hA : registryHas A = true) (hB : registryHas B = true)
    (hne : A ≠ B)
    (hyoung : ¬ (now - cache.cacheTimestamp > ratesTtl))
    (hdir : lookupRate cache.rates (A ++ "_" ++ B) = some rec)
    (hfresh : isRateFresh ratesTtl now rec.updatedAt = true)
    (hrev : lookupRate cache.rates (B ++ "_" ++ A) = none)
    (hr : rec.rate ≠ 0) :
    getRate ratesTtl now apiRefresh fetchApi cache A B = .ok rec.rate ∧
    getRate ratesTtl now apiRefresh fetchApi cache B A = .ok (1 / rec.rate) ∧
    rec.rate * (1 / rec.rate) = 1 := by
  refine ⟨?_, ?_, by field_simp⟩
  · unfold getRate
    rw [hAu, hBu]
    simp only [hA, hB, and_self, not_true_eq_false, if_false]
    rw [if_neg hne, if_neg hyoung]
    simp [freshRateOf, hdir, hfresh]
  · unfold getRate
    rw [hAu, hBu]
    simp only [hA, hB, and_self, not_true_eq_false, if_false]
    rw [if_neg (fun hEq => hne hEq.symm), if_neg hyoung]
    simp [freshRateOf, hrev, hdir, hfresh]

theorem getRate_round_trip_witness :
    getRate 300 150 id (fun _ _ => .error (.apiRequestError "down"))
      ⟨[("BTC_USD", ⟨60000, some 100, "initial"⟩)], 100⟩ "BTC" "USD"
      = .ok 60000 ∧
    getRate 300 150 id (fun _ _ => .error (.apiRequestError "down"))
      ⟨[("BTC_USD", ⟨60000, some 100, "initial"⟩)], 100⟩ "USD" "BTC"
      = .ok (1 / 60000) ∧
    (60000 : ℚ) * (1 / 60000) = 1 := by
  have h := getRate_round_trip 300 150 id (fun _ _ => .error (.apiRequestError "down"))
    ⟨[("BTC_USD", ⟨60000, some 100, "initial"⟩)], 100⟩ "BTC" "USD"
    ⟨60000, some 100, "initial"⟩
    (by decide) (by decide) (by decide) (by decide) (by decide)
    (by norm_num) (by decide)
    (by unfold isRateFresh; norm_num) (by decide) (by norm_num)
  exact h

/-- C10: `get_rate` is case-insensitive in its currency-code arguments —
any spellings that agree after uppercasing get identical results, and in
particular every spelling behaves exactly like its uppercased form, because
both arguments are uppercased before validation and lookup. -/
theorem getRate_case_insensitive (ratesTtl now : ℚ)
    (apiRefresh : List (String × RateRecord) → List (String × RateRecord))
    (fetchApi : String → String → Except RateError ℚ)
    (cache : RatesCache) (a₁ b₁ a₂ b₂ : String)
    (ha : pyUpper a₁ = pyUpper a₂) (hb : pyUpper b₁ = pyUpper b₂) :
    getRate ratesTtl now apiRefresh fetchApi cache a₁ b₁
      = getRate ratesTtl now apiRefresh fetchApi cache a₂ b₂ ∧
    getRate ratesTtl now apiRefresh fetchApi cache a₁ b₁
      = getRate ratesTtl now apiRefresh fetchApi cache (pyUpper a₁) (pyUpper b₁) := by
  constructor
  · unfold getRate
    rw [ha, hb]
  · unfold getRate
    rw [pyUpper_idem, pyUpper_idem]

theorem getRate_case_insensitive_witness :
    pyUpper "btc" = pyUpper "BTC" ∧
    getRate 300 1000 id (fun _ _ => .error (.apiRequestError "down"))
      ⟨[], 0⟩ "btc" "uSd"
      = getRate 300 1000 id (fun _ _ => .error (.apiRequestError "down"))
        ⟨[], 0⟩ "BTC" "USD" := by
  refine ⟨by decide, ?_⟩
  exact (getRate_case_insensitive 300 1000 id (fun _ _ => .error (.apiRequestError "down"))
    ⟨[], 0⟩ "btc" "uSd" "BTC" "USD" (by decide) (by decide)).1

/-! ### Portfolio, transactions and the trade engine
(src/valutatrade_hub/core/models.py, usecases.py: PortfolioManager,
TransactionManager, TradeService) -/

/-- A user's portfolio: `{user_id, wallets: dict currency_code → Wallet}`.
The dict keeps insertion order, so the wallet map is an association list. -/
structure Portfolio where
  user_id : Nat
  wallets : List (String × Wallet)
  deriving Repr, DecidableEq

/-- Embeds `Portfolio.get_wallet`: `self._wallets.get(currency_code)`. -/
def Portfolio.getWallet (p : Portfolio) (code : String) : Option Wallet :=
  (p.wallets.find? (fun kv => kv.1 = code)).map (fun kv => kv.2)

/-- Embeds `Portfolio.add_currency`: raises ValueError when the code is already
present, otherwise inserts a fresh zero-balance wallet. The Python method is
annotated `-> None` and returns nothing — the mutated portfolio here is the
in-place effect, and callers binding its return value get `None`. -/
def Portfolio.addCurrency (p : Portfolio) (code : String) : Except PyError Portfolio :=
  match p.getWallet code with
  | some _ => .error (.valueError ("Валюта " ++ code ++ " уже есть в портфеле"))
  | none => .ok { p with wallets := p.wallets ++ [(code, ⟨code, 0⟩)] }

/-- In-place mutation of one wallet object inside a portfolio (what
`wallet.withdraw`/`wallet.deposit` do to the portfolio holding the object). -/
def Portfolio.setWallet (p : Portfolio) (code : String) (w : Wallet) : Portfolio :=
  { p with wallets := p.wallets.map (fun kv => if kv.1 = code then (code, w) else kv) }

/-- Modelled from the spec: the `Transaction` ledger-entry class is imported
by usecases.py from core/models.py but no such class exists in the source
under src; the fields follow spec section 3
(`{id, user_id, type, from_currency, to_currency, amount, rate, fee,
timestamp}`) and the keyword arguments of the `create_transaction` call
sites in TradeService. -/
structure Transaction where
  transaction_id : Nat
  user_id : Nat
  type : String
  from_currency : String
  to_currency : String
  amount : ℚ
  rate : ℚ
  fee : ℚ
  description : String
  deriving Repr, DecidableEq

/-- Embeds `TransactionManager.create_transaction`: next id is
`max(existing ids, default=0) + 1`; the new entry is inserted into the
transaction store immediately. -/
def createTransaction (txs : List Transaction) (userId : Nat) (type fromC toC : String)
    (amount rate fee : ℚ) (description : String) : Transaction × List Transaction :=
  let tid := (txs.map (fun t => t.transaction_id)).foldl max 0 + 1
  let tx : Transaction :=
    ⟨tid, userId, type, fromC, toC, amount, rate, fee, description⟩
  (tx, txs ++ [tx])

/-- The per-user durable state the trade engine touches: the user's stored
portfolio (portfolios.json) and the transaction store (transactions.json). -/
structure TradeState where
  portfolio : Portfolio
  transactions : List Transaction
  deriving Repr, DecidableEq

/-- Errors raised along the trade code paths. -/
inductive TradeError where
  | currencyNotFound (code : String)
  | invalidAmount
  | insufficientFunds (currency : String) (available required : ℚ)
  | rateError (e : RateError)
  | pyError (e : PyError)
  deriving Repr, DecidableEq

/-- Embeds `PortfolioManager.ensure_wallet_exists`: re-reads the stored portfolio;
if the wallet exists it is returned; otherwise the code binds
`wallet = portfolio.add_currency(currency_code)` — and `add_currency`
returns `None` — then saves the grown portfolio and returns that `None`.
The result is the (possibly `None`) wallet the caller sees together with
the portfolio now held by the store. -/
def ensureWalletExists (stored : Portfolio) (code : String) :
    Except PyError (Option Wallet × Portfolio) :=
  match stored.getWallet code with
  | some w => .ok (some w, stored)
  | none => (stored.addCurrency code).map (fun p' => (none, p'))

/-- The quote arithmetic of `TradeService.buy_currency`:
`cost = amount * rate`, `fee = cost * fee_percent/100`, `total = cost + fee`. -/
def buyQuote (amount rate feePercent : ℚ) : ℚ × ℚ × ℚ :=
  let cost := amount * rate
  let fee := cost * (feePercent / 100)
  (cost, fee, cost + fee)

/-- The ephemeral TradeResult value object. -/
structure TradeResultE where
  success : Bool
  transaction : Transaction
  amount : ℚ
  rate : ℚ
  fee : ℚ
  total_cost : ℚ
  old_balances : List (String × ℚ)
  new_balances : List (String × ℚ)
  deriving Repr, DecidableEq

/-- Embeds `TradeService.buy_currency`. The rate quote is the `getRateF` parameter
(`self.exchange_service.get_rate`); `minTradeAmount` and `feePercentDefault`
are the injected settings (`trading.min_trade_amount`, default 1e-8, and
`trading.default_fee_percent`, default 0.1). The returned pair is the
Python result (or the exception that propagates) together with the durable
state: a raise does not roll back store writes already made, so the
portfolio saved by `ensure_wallet_exists` survives a later failure.
Each `get_user_portfolio` call re-reads the store and builds fresh objects,
so the wallet returned by `ensure_wallet_exists` for a pre-existing
currency is distinct from the same-code wallet inside the local
`portfolio`; `save_portfolio(portfolio)` therefore persists only the base
wallet's debit, exactly as the object graph in the source does. -/
def buyCurrency (getRateF : String → String → Except RateError ℚ)
    (minTradeAmount feePercentDefault : ℚ) (st : TradeState) (userId : Nat)
    (currency : String) (amount : ℚ) (baseCurrency : String)
    (feePercent : Option ℚ) : Except TradeError TradeResultE × TradeState :=
  if ¬ registryHas currency then (.error (.currencyNotFound currency), st)
  else if ¬ registryHas baseCurrency then (.error (.currencyNotFound baseCurrency), st)
  else if amount ≤ 0 then (.error .invalidAmount, st)
  else if amount < minTradeAmount then (.error .invalidAmount, st)
  else
    match getRateF baseCurrency currency with
    | .error e => (.error (.rateError e), st)
    | .ok rate =>
      let (cost, fee, total) := buyQuote amount rate (feePercent.getD feePercentDefault)
      let portfolio := st.portfolio
      match portfolio.getWallet baseCurrency with
      | none => (.error (.pyError (.valueError
          ("Нет кошелька для базовой валюты " ++ baseCurrency))), st)
      | some baseWallet =>
        if baseWallet.balance < total then
          (.error (.insufficientFunds baseCurrency baseWallet.balance total), st)
        else
          match ensureWalletExists st.portfolio currency with
          | .error e => (.error (.pyError e), st)
          | .ok (currencyWalletOpt, storedAfterEnsure) =>
            let st₁ : TradeState := { st with portfolio := storedAfterEnsure }
            match currencyWalletOpt with
            | none =>
              -- old_balances reads currency_wallet.balance on None: AttributeError
              (.error (.pyError .attributeError), st₁)
            | some currencyWallet =>
              let oldBalances := [(baseCurrency, baseWallet.balance),
                                  (currency, currencyWallet.balance)]
              match baseWallet.withdraw total with
              | .error e => (.error (.pyError e), st₁)
              | .ok (baseWallet', _) =>
                match currencyWallet.deposit amount with
                | .error e => (.error (.pyError e), st₁)
                | .ok currencyWallet' =>
                  let (tx, txs') := createTransaction st.transactions userId "buy"
                    baseCurrency currency amount rate fee
                    ("Покупка " ++ currency)
                  let savedPortfolio := portfolio.setWallet baseCurrency baseWallet'
                  let newBalances := [(baseCurrency, baseWallet'.balance),
                                      (currency, currencyWallet'.balance)]
                  (.ok ⟨true, tx, amount, rate, fee, total, oldBalances, newBalances⟩,
                   { portfolio := savedPortfolio, transactions := txs' })

/-- Embeds `TradeService.sell_currency`: mirror of the buy path —
`revenue = amount * rate`, `fee = revenue * fee_percent/100`,
`net_revenue = revenue - fee`; the sold currency's wallet is debited by
`amount` and the target wallet credited with `net_revenue`. There is no
minimum-amount check on the sell side. -/
def sellCurrency (getRateF : String → String → Except RateError ℚ)
    (feePercentDefault : ℚ) (st : TradeState) (userId : Nat)
    (currency : String) (amount : ℚ) (targetCurrency : String)
    (feePercent : Option ℚ) : Except TradeError TradeResultE × TradeState :=
  if ¬ registryHas currency then (.error (.currencyNotFound currency), st)
  else if ¬ registryHas targetCurrency then (.error (.currencyNotFound targetCurrency), st)
  else if amount ≤ 0 then (.error .invalidAmount, st)
  else
    match getRateF currency targetCurrency with
    | .error e => (.error (.rateError e), st)
    | .ok rate =>
      let revenue := amount * rate
      let fee := revenue * ((feePercent.getD feePercentDefault) / 100)
      let netRevenue := revenue - fee
      let portfolio := st.portfolio
      match portfolio.getWallet currency with
      | none => (.error (.pyError (.valueError
          ("У вас нет кошелька " ++ currency))), st)
      | some currencyWallet =>
        if currencyWallet.balance < amount then
          (.error (.insufficientFunds currency currencyWallet.balance amount), st)
        else
          match ensureWalletExists st.portfolio targetCurrency with
          | .error e => (.error (.pyError e), st)
          | .ok (targetWalletOpt, storedAfterEnsure) =>
            let st₁ : TradeState := { st with portfolio := storedAfterEnsure }
            match targetWalletOpt with
            | none => (.error (.pyError .attributeError), st₁)
            | some targetWallet =>
              let oldBalances := [(currency, currencyWallet.balance),
                                  (targetCurrency, targetWallet.balance)]
              match currencyWallet.withdraw amount with
              | .error e => (.error (.pyError e), st₁)
              | .ok (currencyWallet', _) =>
                match targetWallet.deposit netRevenue with
                | .error e => (.error (.pyError e), st₁)
                | .ok targetWallet' =>
                  let (tx, txs') := createTransaction st.transactions userId "sell"
                    currency targetCurrency amount rate fee
                    ("Продажа " ++ currency)
                  let savedPortfolio := portfolio.setWallet currency currencyWallet'
                  let newBalances := [(currency, currencyWallet'.balance),
                                      (targetCurrency, targetWallet'.balance)]
                  (.ok ⟨true, tx, amount, rate, fee, netRevenue, oldBalances, newBalances⟩,
                   { portfolio := savedPortfolio, transactions := txs' })

instance exceptDecEq {ε α : Type} [DecidableEq ε] [DecidableEq α] :
    DecidableEq (Except ε α) := fun a b =>
  match a, b with
  | .ok x, .ok y =>
    if h : x = y then isTrue (by rw [h])
    else isFalse (by intro hh; cases hh; exact h rfl)
  | .ok _, .error _ => isFalse (by intro hh; cases hh)
  | .error _, .ok _ => isFalse (by intro hh; cases hh)
  | .error x, .error y =>
    if h : x = y then isTrue (by rw [h])
    else isFalse (by intro hh; cases hh; exact h rfl)

/-! ### Theorems for C1 and C2 -/

/-- The C1 scenario's stored state: user 1 holding exactly {USD: 1000},
empty transaction ledger. -/
def c1State : TradeState :=
  { portfolio := { user_id := 1, wallets := [("USD", ⟨"USD", 1000⟩)] },
    transactions := [] }

/-- The stored portfolio the code actually leaves behind on the C1 scenario:
USD untouched at 1000 plus an empty auto-created BTC wallet. -/
def c1PortfolioAfter : Portfolio :=
  { user_id := 1, wallets := [("USD", ⟨"USD", 1000⟩), ("BTC", ⟨"BTC", 0⟩)] }

/-- The store contents after the C1 scenario: the grown portfolio saved by
`ensure_wallet_exists`, and no transaction. -/
def c1StateAfter : TradeState :=
  { portfolio := c1PortfolioAfter, transactions := [] }

/-- C1: on the spec scenario (portfolio {USD: 1000}, buy 0.01 BTC against
USD at rate 60000, fee 0.1%) the quote arithmetic does produce cost 600,
fee 0.6, total 600.6, but the operation does not settle: because
`Portfolio.add_currency` returns `None`, `ensure_wallet_exists` hands
`buy_currency` a `None` wallet and reading its `balance` raises an
AttributeError. The store is left with USD still at 1000, an empty
auto-created BTC wallet, and no transaction appended — not the balances
{USD: 399.4, BTC: 0.01} and single buy transaction the spec requires. -/
theorem buy_scenario_crashes :
    buyQuote (1/100) 60000 (1/10) = (600, 3/5, 3003/5) ∧
    buyCurrency (fun _ _ => .ok 60000) (1/100000000) (1/10) c1State 1
      "BTC" (1/100) "USD" none =
      (.error (.pyError .attributeError), c1StateAfter) := by
  constructor
  · unfold buyQuote
    norm_num
  · with_unfolding_all rfl

/-- C2: a sell whose amount exceeds the sold currency's wallet balance fails
with InsufficientFunds carrying (currency, available, required), and the
durable state — every wallet balance and the transaction store — is exactly
what it was: the funds check runs before any wallet mutation, any portfolio
save and any transaction insert. -/
theorem sell_insufficient_funds (getRateF : String → String → Except RateError ℚ)
    (feePercentDefault : ℚ) (st : TradeState) (userId : Nat)
    (currency targetCurrency : String) (amount : ℚ) (feePercent : Option ℚ)
    (r : ℚ) (w : Wallet)
    (hcur : registryHas currency = true)
    (htgt : registryHas targetCurrency = true)
    (hrate : getRateF currency targetCurrency = .ok r)
    (hw : st.portfolio.getWallet currency = some w)
    (hnn : 0 ≤ w.balance)
    (hlt : w.balance < amount) :
    sellCurrency getRateF feePercentDefault st userId currency amount
      targetCurrency feePercent =
      (.error (.insufficientFunds currency w.balance amount), st) := by
  unfold sellCurrency
  rw [hcur, htgt]
  simp only [not_true_eq_false, if_false]
  rw [if_neg (by linarith), hrate, hw]
  dsimp only
  rw [if_pos hlt]

theorem sell_insufficient_funds_witness :
    registryHas "BTC" = true ∧
    sellCurrency (fun _ _ => .ok 60000) (1/10)
      { portfolio := { user_id := 1, wallets := [("BTC", ⟨"BTC", 1/100⟩)] },
        transactions := [] } 1 "BTC" 1 "USD" none =
      (.error (.insufficientFunds "BTC" (1/100) 1),
       { portfolio := { user_id := 1, wallets := [("BTC", ⟨"BTC", 1/100⟩)] },
         transactions := [] }) := by
  refine ⟨by decide, ?_⟩
  exact sell_insufficient_funds (fun _ _ => .ok 60000) (1/10)
    { portfolio := { user_id := 1, wallets := [("BTC", ⟨"BTC", 1/100⟩)] },
      transactions := [] } 1 "BTC" "USD" 1 none 60000 ⟨"BTC", 1/100⟩
    (by decide) (by decide) rfl rfl (by norm_num) (by norm_num)

/-! ### Rates updater (src/valutatrade_hub/parser_service/updater.py,
api_clients.py `_make_request` retry loop, storage.py `save_current_rates`) -/

/-- The `UpdateResult` dataclass (success flag, counts, per-source failures). -/
structure UpdateResult where
  success : Bool
  total_rates : Nat
  updated_pairs : List String
  failed_sources : List String
  errors : List String
  deriving Repr, DecidableEq

/-- What `RatesStorage.save_current_rates` writes to rates.json: the pairs
passed in (each stamped with the shared timestamp and source) and metadata
carrying the source and `total_pairs = len(rates)`. -/
structure StoredRates where
  pairs : List (String × ℚ)
  source : String
  total_pairs : Nat
  deriving Repr, DecidableEq

/-- The retry loop of `BaseApiClient._make_request`: up to `maxRetries`
attempts; the first success returns, the last failure's error is raised;
with zero attempts the trailing unreachable-error branch fires.
`attempts i` is the outcome of attempt number `i`. -/
def retryFetchAux {R : Type} (attempts : Nat → Except String R) :
    Nat → Nat → Except String R
  | _, 0 => .error "Неизвестная ошибка при выполнении запроса"
  | i, n + 1 =>
    match attempts i with
    | .ok r => .ok r
    | .error e => if n = 0 then .error e else retryFetchAux attempts (i + 1) n

/-- A provider fetch with retry, as `client.fetch_rates()` behaves through
`_make_request` (`MAX_RETRIES` attempts). -/
def retryFetch {R : Type} (maxRetries : Nat) (attempts : Nat → Except String R) :
    Except String R :=
  retryFetchAux attempts 0 maxRetries

/-- Python `dict.update`: existing keys take the new value in place, new
keys are appended in order. -/
def dictUpdate (acc newRates : List (String × ℚ)) : List (String × ℚ) :=
  acc.map (fun kv =>
      match newRates.find? (fun p => p.1 = kv.1) with
      | some p => (kv.1, p.2)
      | none => kv)
    ++ newRates.filter (fun p => acc.find? (fun q => q.1 = p.1) = none)

/-- Embeds `RatesUpdater.run_update` over the selected clients. Each client's
fetch goes through the retry loop; an exhausted provider is recorded in
`failed_sources` and its error message in `errors`, and the loop moves on.
The merged rates are filtered by per-pair freshness (unless forced), the
survivors are written wholesale as the new snapshot with source "multiple"
when more than one client was queried, and appended to the bounded history.
Returns the result object, the stored snapshot after the run, and the
stored history after the run. -/
def runUpdate (maxRetries : Nat) (freshFn : String → Bool) (forceUpdate : Bool)
    (clients : List (String × (Nat → Except String (List (String × ℚ)))))
    (stored : Option StoredRates) (history : List HistoryRecord)
    (mkRecord : String → ℚ → HistoryRecord) :
    UpdateResult × Option StoredRates × List HistoryRecord :=
  if clients.isEmpty then
    ({ success := false, total_rates := 0, updated_pairs := [],
       failed_sources := [], errors := ["Нет доступных клиентов"] },
     stored, history)
  else
    let step := fun (acc : List (String × ℚ) × List String × List String)
        (client : String × (Nat → Except String (List (String × ℚ)))) =>
      match retryFetch maxRetries client.2 with
      | .ok rates => (dictUpdate acc.1 rates, acc.2.1, acc.2.2)
      | .error e => (acc.1, acc.2.1 ++ [client.1], acc.2.2 ++ [client.1 ++ ": " ++ e])
    match clients.foldl step ([], [], []) with
    | (allRates, failedSources, errs) =>
      if allRates.isEmpty then
        ({ success := false, total_rates := 0, updated_pairs := [],
           failed_sources := failedSources,
           errors := errs ++ ["Не удалось получить ни одного курса"] },
         stored, history)
      else
        let ratesToUpdate := allRates.filter (fun p => forceUpdate || ! freshFn p.1)
        let updatedPairs := ratesToUpdate.map (fun p => p.1)
        if ratesToUpdate.isEmpty && ! forceUpdate then
          ({ success := true, total_rates := allRates.length,
             updated_pairs := updatedPairs, failed_sources := failedSources,
             errors := errs }, stored, history)
        else
          let source := match clients with
            | [c] => c.1
            | _ => "multiple"
          let snapshot : StoredRates :=
            { pairs := ratesToUpdate, source := source,
              total_pairs := ratesToUpdate.length }
          let history' := saveToHistory history
            (ratesToUpdate.map (fun p => mkRecord p.1 p.2))
          ({ success := true, total_rates := allRates.length,
             updated_pairs := updatedPairs, failed_sources := failedSources,
             errors := errs }, some snapshot, history')

theorem retryFetchAux_allFail {R : Type} (attempts : Nat → Except String R)
    (e : String) :
    ∀ n i, 0 < n → (∀ j, j < n → attempts (i + j) = .error e) →
      retryFetchAux attempts i n = .error e := by
  intro n
  induction n with
  | zero => intro i h; omega
  | succ m ih =>
    intro i _ hall
    unfold retryFetchAux
    have h0 : attempts i = .error e := by
      have := hall 0 (by omega)
      simpa using this
    rw [h0]
    dsimp only
    by_cases hm : m = 0
    · simp [hm]
    · rw [if_neg hm]
      exact ih (i + 1) (by omega) (fun j hj => by
        have := hall (j + 1) (by omega)
        rw [show i + 1 + j = i + (j + 1) by omega]
        exact this)

theorem retryFetch_allFail {R : Type} (maxRetries : Nat)
    (attempts : Nat → Except String R) (e : String)
    (hpos : 0 < maxRetries)
    (hall : ∀ i, i < maxRetries → attempts i = .error e) :
    retryFetch maxRetries attempts = .error e := by
  unfold retryFetch
  exact retryFetchAux_allFail attempts e maxRetries 0 hpos
    (fun j hj => by simpa using hall j hj)

theorem dictUpdate_nil (newRates : List (String × ℚ)) :
    dictUpdate [] newRates = newRates := by
  unfold dictUpdate
  simp

/-- C5: with two providers where the first fails every retry attempt and the
second succeeds, `run_update` reports `failed_sources = [first]`, writes the
second provider's (non-fresh) pairs as the new snapshot, appends them to the
history, and the overall result has `success = true`. -/
theorem refresh_partial_success (maxRetries : Nat) (freshFn : String → Bool)
    (nA nB eA : String) (fA fB : Nat → Except String (List (String × ℚ)))
    (ratesB : List (String × ℚ)) (stored : Option StoredRates)
    (history : List HistoryRecord) (mkRecord : String → ℚ → HistoryRecord)
    (hpos : 0 < maxRetries)
    (hA : ∀ i, i < maxRetries → fA i = .error eA)
    (hB : retryFetch maxRetries fB = .ok ratesB)
    (hne : ratesB ≠ [])
    (hstale : ∀ p ∈ ratesB, freshFn p.1 = false) :
    runUpdate maxRetries freshFn false [(nA, fA), (nB, fB)] stored history mkRecord =
      ({ success := true, total_rates := ratesB.length,
         updated_pairs := ratesB.map (fun p => p.1),
         failed_sources := [nA], errors := [nA ++ ": " ++ eA] },
       some { pairs := ratesB, source := "multiple",
              total_pairs := ratesB.length },
       saveToHistory history (ratesB.map (fun p => mkRecord p.1 p.2))) := by
  have hAfail : retryFetch maxRetries fA = .error eA :=
    retryFetch_allFail maxRetries fA eA hpos hA
  have hfilter : ratesB.filter (fun p => false || ! freshFn p.1) = ratesB := by
    rw [List.filter_eq_self]
    intro p hp
    simp [hstale p hp]
  unfold runUpdate
  simp only [List.isEmpty_cons, List.foldl_cons, List.foldl_nil, hAfail, hB,
    dictUpdate_nil, if_false, Bool.false_eq_true]
  rw [if_neg (by simp [hne]), hfilter]
  rw [if_neg (by simp [hne])]
  simp

theorem refresh_partial_success_witness :
    (0 < 3) ∧
    runUpdate 3 (fun _ => false) false
      [("coingecko", fun _ => .error "timeout"),
       ("exchangerate", fun _ => .ok [("EUR_USD", 10786/10000)])]
      none [] (fun p r => ⟨p, "EUR", "USD", r, 50, "exchangerate"⟩) =
      ({ success := true, total_rates := 1, updated_pairs := ["EUR_USD"],
         failed_sources := ["coingecko"],
         errors := ["coingecko" ++ ": " ++ "timeout"] },
       some { pairs := [("EUR_USD", 10786/10000)], source := "multiple",
              total_pairs := 1 },
       saveToHistory [] [⟨"EUR_USD", "EUR", "USD", 10786/10000, 50, "exchangerate"⟩]) := by
  refine ⟨by norm_num, ?_⟩
  have h := refresh_partial_success 3 (fun _ => false) "coingecko" "exchangerate"
    "timeout" (fun _ => .error "timeout") (fun _ => .ok [("EUR_USD", 10786/10000)])
    [("EUR_USD", 10786/10000)] none []
    (fun p r => ⟨p, "EUR", "USD", r, 50, "exchangerate"⟩)
    (by norm_num) (fun i _ => rfl) rfl (by simp)
    (fun p _ => rfl)
  exact h

end ValutaTrade
